import Mathlib

/-!
Verification of the `Library`/`Book` data-management layer of
`src/library.py` (a single-user book catalog persisted to a JSON file).

The Python code is shallowly embedded: `Book` becomes a structure,
the backing file becomes an explicit `FileState` value, operations that
print diagnostics return the list of messages they emit, and operations
that may raise return `Except PyError`.
-/

/-- Python exceptions relevant to the library code: `json.JSONDecodeError`
raised by `json.loads`, and `KeyError key` raised by a dict lookup. -/
inductive PyError where
  | jsonDecodeError
  | keyError (key : String)
deriving DecidableEq

/-- One catalog record, mirroring `class Book` of `src/library.py`
(fields `id, title, author, year, status`). -/
structure Book where
  id : Int
  title : String
  author : String
  year : Int
  status : String
deriving DecidableEq

/-- `Book.__init__` with its default argument `status = "в наличии"`:
`Book(title, author, year, book_id)` as called by `add_book`. -/
def Book.mk_default (title author : String) (year : Int) (book_id : Int) : Book :=
  { id := book_id, title := title, author := author, year := year, status := "в наличии" }

/-- A persisted JSON object for one book: each of the five required keys is
either present with a value of the schema type or absent (`none`).
Mirrors the dicts consumed by `Book.from_dict`. -/
structure BookDict where
  id : Option Int
  title : Option String
  author : Option String
  year : Option Int
  status : Option String
deriving DecidableEq

/-- `Book.to_dict`: a dict with all five keys present. -/
def Book.to_dict (b : Book) : BookDict :=
  { id := some b.id, title := some b.title, author := some b.author,
    year := some b.year, status := some b.status }

/-- `Book.from_dict`: reads `data["title"], data["author"], data["year"],
data["id"], data["status"]` in that order; a missing key raises `KeyError`
at the first absent lookup, mirroring Python evaluation order. -/
def Book.from_dict (d : BookDict) : Except PyError Book :=
  match d.title with
  | none => .error (.keyError "title")
  | some t =>
    match d.author with
    | none => .error (.keyError "author")
    | some a =>
      match d.year with
      | none => .error (.keyError "year")
      | some y =>
        match d.id with
        | none => .error (.keyError "id")
        | some i =>
          match d.status with
          | none => .error (.keyError "status")
          | some s => .ok { id := i, title := t, author := a, year := y, status := s }

/-- Contents of the backing file, as far as `load_books` distinguishes them:
empty-or-whitespace text, text that makes `json.loads` raise
`JSONDecodeError`, or a well-formed JSON array of record objects. -/
inductive FileContent where
  | blank
  | badJson
  | goodJson (records : List BookDict)
deriving DecidableEq

/-- The backing file on disk: absent, or present with some content. -/
inductive FileState where
  | absent
  | present (content : FileContent)
deriving DecidableEq

/-- The diagnostic printed by the `except json.JSONDecodeError` handler. -/
def decodeErrorMsg : String := "Ошибка декодирования JSON. Файл поврежден или пуст."

/-- The diagnostic printed when a book id is not found. -/
def notFoundMsg (book_id : Int) : String :=
  "Книга с ID " ++ toString book_id ++ " не найдена."

/-- The list comprehension `[Book.from_dict book for book in json.loads(data)]`:
converts records left to right, raising at the first failing record. -/
def fromDicts : List BookDict → Except PyError (List Book)
  | [] => .ok []
  | d :: ds =>
    match Book.from_dict d with
    | .error e => .error e
    | .ok b =>
      match fromDicts ds with
      | .error e => .error e
      | .ok bs => .ok (b :: bs)

/-- The body of the `try` block in `load_books`, given that the file exists:
whitespace-only text leaves `self.books` untouched; otherwise the parsed and
converted records replace it; `badJson` raises `JSONDecodeError`; a record
with a missing key raises `KeyError` out of the comprehension. -/
def loadTryBody (books : List Book) (c : FileContent) : Except PyError (List Book) :=
  match c with
  | .blank => .ok books
  | .badJson => .error .jsonDecodeError
  | .goodJson recs => fromDicts recs

/-- The `except json.JSONDecodeError` handler around the `try` body: on that
error it prints the diagnostic and leaves `self.books` as it was; any other
exception propagates uncaught. The `List String` carries emitted diagnostics. -/
def handleDecode (books : List Book) (r : Except PyError (List Book)) :
    Except PyError (List Book × List String) :=
  match r with
  | .ok bs => .ok (bs, [])
  | .error .jsonDecodeError => .ok (books, [decodeErrorMsg])
  | .error e => .error e

/-- `Library.load_books`: no-op when the file does not exist, else the `try`
block wrapped in the decode-error handler. -/
def load_books (books : List Book) (file : FileState) :
    Except PyError (List Book × List String) :=
  match file with
  | .absent => .ok (books, [])
  | .present c => handleDecode books (loadTryBody books c)

/-- A `Library` instance: the in-memory ordered collection plus the contents
of its backing file (the path itself is abstracted away). -/
structure Library where
  books : List Book
  file : FileState
deriving DecidableEq

/-- The file contents written by `Library.save_books`: the whole collection
serialized in order as a JSON array of five-key objects. -/
def saveFile (books : List Book) : FileState :=
  .present (.goodJson (books.map Book.to_dict))

/-- `Library.save_books`: overwrite the backing file with the serialized
in-memory collection. -/
def save_books (lib : Library) : Library :=
  { lib with file := saveFile lib.books }

/-- `Library.__init__(storage_file)`: start with an empty collection and run
`load_books`; diagnostics emitted during load are returned alongside. -/
def Library.init (file : FileState) : Except PyError (Library × List String) :=
  match load_books [] file with
  | .ok (bs, ds) => .ok ({ books := bs, file := file }, ds)
  | .error e => .error e

/-- `Library._generate_id`: `max(book.id for book in self.books) + 1` when the
collection is non-empty, else `1`. -/
def generate_id (books : List Book) : Int :=
  match books with
  | [] => 1
  | b :: bs => (bs.foldl (fun m c => max m c.id) b.id) + 1

/-- `Library.add_book(title, author, year)`: generate an id, construct a Book
with the default status, append it, and save. -/
def add_book (title author : String) (year : Int) (lib : Library) : Library :=
  let new_id := generate_id lib.books
  let new_book := Book.mk_default title author year new_id
  save_books { lib with books := lib.books ++ [new_book] }

/-- `Library.find_book_by_id`: linear scan for the first book whose id
matches. -/
def find_book_by_id (book_id : Int) (books : List Book) : Option Book :=
  books.find? (fun b => decide (b.id = book_id))

/-- `Library.remove_book(book_id)`: if `find_book_by_id` finds a book, remove
that (first matching) book from the list and save; otherwise print the
not-found diagnostic and change nothing. -/
def remove_book (book_id : Int) (lib : Library) : Library × List String :=
  match find_book_by_id book_id lib.books with
  | some _ =>
    (save_books { lib with books := lib.books.eraseP (fun b => decide (b.id = book_id)) }, [])
  | none => (lib, [notFoundMsg book_id])

/-- In-place mutation `book.status = new_status` of the first book with the
given id (the object `find_book_by_id` returned). -/
def setStatusFirst (book_id : Int) (new_status : String) : List Book → List Book
  | [] => []
  | b :: bs =>
    if b.id = book_id then { b with status := new_status } :: bs
    else b :: setStatusFirst book_id new_status bs

/-- `Library.change_status(book_id, new_status)`: if found, overwrite that
book's status field in place and save; else print the not-found diagnostic
and change nothing. No validation of `new_status` happens here. -/
def change_status (book_id : Int) (new_status : String) (lib : Library) :
    Library × List String :=
  match find_book_by_id book_id lib.books with
  | some _ => (save_books { lib with books := setStatusFirst book_id new_status lib.books }, [])
  | none => (lib, [notFoundMsg book_id])

/-- Python truthiness of an `Optional[str]` argument: `None` and `""` are
falsy. -/
def truthyS : Option String → Bool
  | none => false
  | some s => decide (s ≠ "")

/-- Python truthiness of an `Optional[int]` argument: `None` and `0` are
falsy. -/
def truthyI : Option Int → Bool
  | none => false
  | some n => decide (n ≠ 0)

/-- Python `needle in hay` on strings: substring containment. -/
def strContains (hay needle : String) : Bool :=
  decide (needle.data <:+: hay.data)

/-- `Library.find_books(title, author, year)`: starting from the whole
collection, filter successively by each truthy criterion — case-insensitive
substring for title and author, equality for year. -/
def find_books (title author : Option String) (year : Option Int)
    (books : List Book) : List Book :=
  let r1 :=
    if truthyS title then
      books.filter (fun b => strContains b.title.toLower ((title.getD "").toLower))
    else books
  let r2 :=
    if truthyS author then
      r1.filter (fun b => strContains b.author.toLower ((author.getD "").toLower))
    else r1
  if truthyI year then r2.filter (fun b => decide (b.year = year.getD 0)) else r2

/-- `Library.list_books`: the full in-memory collection in order. -/
def list_books (lib : Library) : List Book :=
  lib.books

/-- `add_book` applied to a whole sequence of `(title, author, year)`
inputs, left to right. -/
def addSeq : List (String × String × Int) → Library → Library
  | [], lib => lib
  | (t, a, y) :: rest, lib => addSeq rest (add_book t a y lib)

/-- The identifiers assigned by the successive `add_book` calls of a
sequence, in call order. -/
def assignedIds : List (String × String × Int) → Library → List Int
  | [], _ => []
  | (t, a, y) :: rest, lib => generate_id lib.books :: assignedIds rest (add_book t a y lib)

/-- Modelled from the spec: the matching predicate of `findBooks` as §4.2
words it — every supplied (non-omitted, i.e. `some`) criterion must hold,
title and author by case-insensitive substring, year by exact equality. -/
def specMatches (title author : Option String) (year : Option Int) (b : Book) : Bool :=
  (match title with
   | none => true
   | some t => strContains b.title.toLower t.toLower) &&
  (match author with
   | none => true
   | some a => strContains b.author.toLower a.toLower) &&
  (match year with
   | none => true
   | some y => decide (b.year = y))

/-- The matching predicate `find_books` actually applies: like `specMatches`
but a falsy criterion (`""` or `0`) is treated as omitted. -/
def truthyMatches (title author : Option String) (year : Option Int) (b : Book) : Bool :=
  (!truthyS title || strContains b.title.toLower ((title.getD "").toLower)) &&
  (!truthyS author || strContains b.author.toLower ((author.getD "").toLower)) &&
  (!truthyI year || decide (b.year = year.getD 0))

/-- An empty store over an absent file, for concrete instantiations. -/
def emptyLib : Library := { books := [], file := .absent }

/-- A second concrete book for instantiations. -/
def duneBook : Book :=
  { id := 1, title := "Dune", author := "Herbert", year := 1965, status := "в наличии" }

/-- A concrete book with identifier 2. -/
def foundationBook : Book :=
  { id := 2, title := "Foundation", author := "Asimov", year := 1951, status := "в наличии" }

/-- A record missing the required `title` key. -/
def recMissingTitle : BookDict :=
  { id := some 7, title := none, author := some "Herbert", year := some 1965,
    status := some "в наличии" }

/-- A concrete one-book store for instantiations. -/
def duneLib : Library := { books := [duneBook], file := FileState.absent }

/-- A concrete two-book store for instantiations. -/
def twoBookLib : Library := { books := [duneBook, foundationBook], file := FileState.absent }

lemma foldl_max_le_init (bs : List Book) (acc : Int) :
    acc ≤ bs.foldl (fun m c => max m c.id) acc := by
  induction bs generalizing acc with
  | nil => exact le_refl acc
  | cons b bs ih =>
    exact le_trans (le_max_left acc b.id) (ih (max acc b.id))

lemma le_foldl_max_of_mem (bs : List Book) (acc : Int) (c : Book) (hc : c ∈ bs) :
    c.id ≤ bs.foldl (fun m r => max m r.id) acc := by
  induction bs generalizing acc with
  | nil => cases hc
  | cons b bs ih =>
    rcases List.mem_cons.mp hc with h | h
    · subst h
      exact le_trans (le_max_right acc c.id) (foldl_max_le_init bs (max acc c.id))
    · exact ih (max acc b.id) h

lemma foldl_max_cases (bs : List Book) (acc : Int) :
    bs.foldl (fun m c => max m c.id) acc = acc ∨
      ∃ c ∈ bs, bs.foldl (fun m r => max m r.id) acc = c.id := by
  induction bs generalizing acc with
  | nil => exact Or.inl rfl
  | cons b bs ih =>
    rcases ih (max acc b.id) with h | ⟨c, hc, h⟩
    · rcases max_cases acc b.id with ⟨hm, _⟩ | ⟨hm, _⟩
      · exact Or.inl (by rw [List.foldl_cons, h, hm])
      · exact Or.inr ⟨b, List.mem_cons_self b bs, by rw [List.foldl_cons, h, hm]⟩
    · exact Or.inr ⟨c, List.mem_cons_of_mem b hc, h⟩

/-- `_generate_id` on a non-empty collection is the id of a maximal element
plus one. -/
lemma generate_id_spec_nonempty (b : Book) (bs : List Book) :
    ∃ m ∈ b :: bs, generate_id (b :: bs) = m.id + 1 ∧ ∀ c ∈ b :: bs, c.id ≤ m.id := by
  rcases foldl_max_cases bs b.id with h | ⟨c, hc, h⟩
  · refine ⟨b, List.mem_cons_self b bs, ?_, ?_⟩
    · show (bs.foldl (fun m c => max m c.id) b.id) + 1 = b.id + 1
      rw [h]
    · intro c hcmem
      rcases List.mem_cons.mp hcmem with hcb | hcbs
      · subst hcb; exact le_refl c.id
      · exact h ▸ le_foldl_max_of_mem bs b.id c hcbs
  · refine ⟨c, List.mem_cons_of_mem b hc, ?_, ?_⟩
    · show (bs.foldl (fun m r => max m r.id) b.id) + 1 = c.id + 1
      rw [h]
    · intro d hdmem
      rcases List.mem_cons.mp hdmem with hdb | hdbs
      · subst hdb; exact h ▸ foldl_max_le_init bs d.id
      · exact h ▸ le_foldl_max_of_mem bs b.id d hdbs

/-- Every id already in the collection is strictly below the next generated
id. -/
lemma lt_generate_id (books : List Book) (b : Book) (hb : b ∈ books) :
    b.id < generate_id books := by
  cases books with
  | nil => cases hb
  | cons c cs =>
    show b.id < (cs.foldl (fun m r => max m r.id) c.id) + 1
    have hle : b.id ≤ cs.foldl (fun m r => max m r.id) c.id := by
      rcases List.mem_cons.mp hb with h | h
      · subst h; exact foldl_max_le_init cs b.id
      · exact le_foldl_max_of_mem cs c.id b h
    omega

lemma add_book_books_eq (t a : String) (y : Int) (lib : Library) :
    (add_book t a y lib).books =
      lib.books ++ [Book.mk_default t a y (generate_id lib.books)] := rfl

/-- Every id assigned later in an `add_book` sequence is strictly above every
id present at the start. -/
lemma assignedIds_gt_mem (inputs : List (String × String × Int)) (lib : Library) :
    ∀ x ∈ assignedIds inputs lib, ∀ b ∈ lib.books, b.id < x := by
  induction inputs generalizing lib with
  | nil => intro x hx; cases hx
  | cons p rest ih =>
    rcases p with ⟨t, a, y⟩
    intro x hx b hb
    rcases List.mem_cons.mp hx with h | h
    · subst h; exact lt_generate_id lib.books b hb
    · refine ih (add_book t a y lib) x h b ?_
      rw [add_book_books_eq]
      exact List.mem_append_left _ hb

lemma assignedIds_pairwise (inputs : List (String × String × Int)) (lib : Library) :
    (assignedIds inputs lib).Pairwise (· < ·) := by
  induction inputs generalizing lib with
  | nil => exact List.Pairwise.nil
  | cons p rest ih =>
    rcases p with ⟨t, a, y⟩
    refine List.Pairwise.cons ?_ (ih (add_book t a y lib))
    intro x hx
    have hmem : Book.mk_default t a y (generate_id lib.books) ∈ (add_book t a y lib).books := by
      rw [add_book_books_eq]
      exact List.mem_append_right _ (List.mem_singleton.mpr rfl)
    exact assignedIds_gt_mem rest (add_book t a y lib) x hx _ hmem

/-- C1. Identifier generation: the next id is 1 on an empty collection and
one more than a maximal present id on a non-empty one; `add_book` assigns
exactly that id to the appended book; and over any sequence of `add_book`
calls from any state the assigned ids are strictly increasing, hence each
exceeds all earlier ones and all are pairwise distinct. -/
theorem addBook_id_generation :
    (generate_id [] = 1) ∧
    (∀ (b : Book) (bs : List Book),
      ∃ m ∈ b :: bs, generate_id (b :: bs) = m.id + 1 ∧ ∀ c ∈ b :: bs, c.id ≤ m.id) ∧
    (∀ (t a : String) (y : Int) (lib : Library),
      ∃ nb, (add_book t a y lib).books = lib.books ++ [nb] ∧
        nb.id = generate_id lib.books) ∧
    (∀ (inputs : List (String × String × Int)) (lib : Library),
      (assignedIds inputs lib).Pairwise (· < ·)) := by
  refine ⟨rfl, generate_id_spec_nonempty, ?_, assignedIds_pairwise⟩
  intro t a y lib
  exact ⟨Book.mk_default t a y (generate_id lib.books), add_book_books_eq t a y lib, rfl⟩

/-- C1, instantiated: the ids assigned by two concrete adds from the empty
store are strictly increasing. -/
theorem addBook_id_generation_witness :
    (assignedIds [("Dune", "Herbert", 1965), ("Foundation", "Asimov", 1951)]
      emptyLib).Pairwise (· < ·) :=
  addBook_id_generation.2.2.2 [("Dune", "Herbert", 1965), ("Foundation", "Asimov", 1951)]
    emptyLib

/-- C6. `add_book` constructs a book with status defaulted to the literal
"в наличии", appends it at the end of the in-memory sequence, and rewrites
the file with the new collection; it is total in all inputs (no
validation). -/
theorem addBook_appends_default_status (t a : String) (y : Int) (lib : Library) :
    (add_book t a y lib).books = lib.books ++
      [{ id := generate_id lib.books, title := t, author := a, year := y,
         status := "в наличии" }] ∧
    (add_book t a y lib).file = saveFile ((add_book t a y lib).books) :=
  ⟨rfl, rfl⟩

lemma from_dict_to_dict (b : Book) : Book.from_dict (Book.to_dict b) = .ok b := rfl

lemma fromDicts_map_to_dict (bs : List Book) :
    fromDicts (bs.map Book.to_dict) = .ok bs := by
  induction bs with
  | nil => rfl
  | cons b bs ih =>
    show fromDicts (Book.to_dict b :: bs.map Book.to_dict) = .ok (b :: bs)
    rw [fromDicts, from_dict_to_dict, ih]

/-- C3. Round-trip: constructing a fresh store over the file written by
`save_books` reproduces exactly the saved sequence of books (all five
fields, in order), with no diagnostics. -/
theorem save_load_roundtrip (lib : Library) :
    Library.init (save_books lib).file =
      .ok ({ books := lib.books, file := saveFile lib.books }, []) := by
  show Library.init (saveFile lib.books) = _
  rw [Library.init, saveFile, load_books, loadTryBody, fromDicts_map_to_dict, handleDecode]

/-- C7. Loading a file whose contents are invalid JSON is recovered locally:
construction succeeds, exactly one diagnostic (the decode-error message) is
emitted, the collection is left empty, and the store remains usable — a
subsequent `add_book` appends a book with id 1 as from an empty store. -/
theorem badJson_recovered :
    Library.init (.present .badJson) =
      .ok ({ books := [], file := .present .badJson }, [decodeErrorMsg]) ∧
    [decodeErrorMsg].length = 1 ∧
    ∀ (t a : String) (y : Int),
      (add_book t a y { books := [], file := .present .badJson }).books =
        [Book.mk_default t a y 1] := by
  exact ⟨rfl, rfl, fun t a y => rfl⟩

/-- C9. Falsy criteria are treated as omitted by `find_books`: an empty
title or author string, or year 0, behaves exactly as passing no criterion;
in particular an empty-string title query or a year-0 query returns every
book. -/
theorem falsy_criteria_omitted (books : List Book) (title author : Option String)
    (year : Option Int) :
    find_books (some "") author year books = find_books none author year books ∧
    find_books title (some "") year books = find_books title none year books ∧
    find_books title author (some 0) books = find_books title author none books ∧
    find_books (some "") none none books = books ∧
    find_books none none (some 0) books = books :=
  ⟨rfl, rfl, rfl, rfl, rfl⟩

lemma if_filter_eq (g : Bool) (p : Book → Bool) (l : List Book) :
    (if g then l.filter p else l) = l.filter (fun b => !g || p b) := by
  cases g with
  | false => simp
  | true => simp

lemma find_books_eq_filter (title author : Option String) (year : Option Int)
    (books : List Book) :
    find_books title author year books = books.filter (truthyMatches title author year) := by
  show (if truthyI year then
        (if truthyS author then
          (if truthyS title then
            books.filter (fun b => strContains b.title.toLower ((title.getD "").toLower))
           else books).filter
            (fun b => strContains b.author.toLower ((author.getD "").toLower))
         else
          (if truthyS title then
            books.filter (fun b => strContains b.title.toLower ((title.getD "").toLower))
           else books)).filter (fun b => decide (b.year = year.getD 0))
       else
        (if truthyS author then
          (if truthyS title then
            books.filter (fun b => strContains b.title.toLower ((title.getD "").toLower))
           else books).filter
            (fun b => strContains b.author.toLower ((author.getD "").toLower))
         else
          (if truthyS title then
            books.filter (fun b => strContains b.title.toLower ((title.getD "").toLower))
           else books))) = _
  rw [if_filter_eq (truthyS title), if_filter_eq (truthyS author),
    if_filter_eq (truthyI year), List.filter_filter, List.filter_filter]
  apply List.filter_congr
  intro b _
  cases h1 : !truthyS title || strContains b.title.toLower ((title.getD "").toLower) <;>
    cases h2 : !truthyS author || strContains b.author.toLower ((author.getD "").toLower) <;>
      cases h3 : !truthyI year || decide (b.year = year.getD 0) <;>
        simp [truthyMatches, h1, h2, h3]

/-- C2 fails as literally stated: the year criterion, when supplied as `0`,
is not applied as an exact equality match — on a store holding one book with
year 1965, `find_books` with year 0 returns that book, while the spec's
matcher (exact equality on the supplied year) matches nothing. -/
theorem findBooks_spec_counterexample :
    find_books none none (some 0) [duneBook] ≠
      List.filter (specMatches none none (some 0)) [duneBook] := by
  decide

/-- C2 (amended). `find_books` returns exactly the books matching all
truthy criteria — a criterion that is omitted or falsy (empty string for
title/author, 0 for year) imposes no constraint; title and author are
case-insensitive substring matches and a nonzero year is an exact equality
match. Passing no criteria returns the whole collection, the result is a
sublist of the collection (original order preserved, empty when nothing
matches). -/
theorem findBooks_matches_truthy (title author : Option String) (year : Option Int)
    (books : List Book) :
    find_books title author year books = books.filter (truthyMatches title author year) ∧
    find_books none none none books = books ∧
    (find_books title author year books).Sublist books := by
  refine ⟨find_books_eq_filter title author year books, rfl, ?_⟩
  rw [find_books_eq_filter]
  exact List.filter_sublist books

/-- `find_book_by_id` returning a book splits the collection into a prefix
with no matching id, the found book (whose id matches), and a suffix. -/
lemma find_decomp (i : Int) (books : List Book) (b : Book)
    (h : find_book_by_id i books = some b) :
    b.id = i ∧ ∃ pre post, books = pre ++ b :: post ∧ ∀ c ∈ pre, c.id ≠ i := by
  induction books with
  | nil => simp [find_book_by_id] at h
  | cons c cs ih =>
    by_cases hc : c.id = i
    · have hfind : find_book_by_id i (c :: cs) = some c := by
        unfold find_book_by_id
        rw [List.find?_cons_of_pos]
        exact decide_eq_true hc
      rw [hfind] at h
      have hbc : c = b := Option.some.inj h
      subst hbc
      exact ⟨hc, [], cs, rfl, by intro d hd; cases hd⟩
    · have hfind : find_book_by_id i (c :: cs) = find_book_by_id i cs := by
        unfold find_book_by_id
        rw [List.find?_cons_of_neg]
        simpa using hc
      rw [hfind] at h
      obtain ⟨hbid, pre, post, heq, hpre⟩ := ih h
      refine ⟨hbid, c :: pre, post, by rw [heq]; rfl, ?_⟩
      intro d hd
      rcases List.mem_cons.mp hd with h1 | h1
      · subst h1; exact hc
      · exact hpre d h1

lemma eraseP_append_decomp (i : Int) (pre post : List Book) (b : Book)
    (hb : b.id = i) (hpre : ∀ c ∈ pre, c.id ≠ i) :
    (pre ++ b :: post).eraseP (fun c => decide (c.id = i)) = pre ++ post := by
  induction pre with
  | nil =>
    show (b :: post).eraseP (fun c => decide (c.id = i)) = post
    rw [List.eraseP_cons_of_pos]
    exact decide_eq_true hb
  | cons c cs ih =>
    have hc : ¬ (c.id = i) := hpre c (List.mem_cons_self c cs)
    show ((c :: (cs ++ b :: post)).eraseP (fun r => decide (r.id = i))) = c :: (cs ++ post)
    rw [List.eraseP_cons_of_neg (by simpa using hc)]
    rw [ih (fun d hd => hpre d (List.mem_cons_of_mem c hd))]

lemma setStatusFirst_append_decomp (i : Int) (st : String) (pre post : List Book) (b : Book)
    (hb : b.id = i) (hpre : ∀ c ∈ pre, c.id ≠ i) :
    setStatusFirst i st (pre ++ b :: post) = pre ++ { b with status := st } :: post := by
  induction pre with
  | nil =>
    show setStatusFirst i st (b :: post) = { b with status := st } :: post
    simp only [setStatusFirst, hb, if_pos]
  | cons c cs ih =>
    have hc : ¬ (c.id = i) := hpre c (List.mem_cons_self c cs)
    show setStatusFirst i st (c :: (cs ++ b :: post)) =
      c :: (cs ++ { b with status := st } :: post)
    simp only [setStatusFirst, hc, if_neg, ite_false]
    rw [ih (fun d hd => hpre d (List.mem_cons_of_mem c hd))]

lemma find_none_after_erase (i : Int) (pre post : List Book) (b : Book)
    (hb : b.id = i)
    (hpre : ∀ c ∈ pre, c.id ≠ i)
    (hnodup : ((pre ++ b :: post).map Book.id).Nodup) :
    find_book_by_id i (pre ++ post) = none := by
  unfold find_book_by_id
  rw [List.find?_eq_none]
  intro c hc
  simp only [decide_eq_true_eq]
  rcases List.mem_append.mp hc with h1 | h1
  · exact hpre c h1
  · intro he
    rw [List.map_append, List.map_cons] at hnodup
    have hnotin : b.id ∉ post.map Book.id :=
      (List.nodup_cons.mp (hnodup.of_append_right)).1
    have hcmem : c.id ∈ post.map Book.id := List.mem_map_of_mem Book.id h1
    rw [he, ← hb] at hcmem
    exact hnotin hcmem

/-- C4. `remove_book` on a present id deletes exactly the (unique, by the
id-uniqueness invariant) matching book from the sequence and rewrites the
file; afterwards `find_book_by_id` on that id reports not-found. On an
absent id it emits exactly the not-found diagnostic and leaves the store —
collection and file — completely unchanged, with no save. -/
theorem removeBook_spec (lib : Library) (i : Int)
    (hnodup : (lib.books.map Book.id).Nodup) :
    (∀ b, find_book_by_id i lib.books = some b →
      (∃ pre post, lib.books = pre ++ b :: post ∧
          (remove_book i lib).1.books = pre ++ post) ∧
      (remove_book i lib).1.file = saveFile ((remove_book i lib).1.books) ∧
      (remove_book i lib).2 = [] ∧
      find_book_by_id i ((remove_book i lib).1.books) = none) ∧
    (find_book_by_id i lib.books = none →
      (remove_book i lib).1 = lib ∧ (remove_book i lib).2 = [notFoundMsg i]) := by
  constructor
  · intro b hfind
    obtain ⟨hbid, pre, post, heq, hpre⟩ := find_decomp i lib.books b hfind
    have hbooks : (remove_book i lib).1.books = pre ++ post := by
      simp only [remove_book, hfind]
      show lib.books.eraseP (fun c => decide (c.id = i)) = pre ++ post
      rw [heq]
      exact eraseP_append_decomp i pre post b hbid hpre
    refine ⟨⟨pre, post, heq, hbooks⟩, ?_, ?_, ?_⟩
    · simp only [remove_book, hfind]
      rfl
    · simp only [remove_book, hfind]
    · rw [hbooks]
      rw [heq] at hnodup
      exact find_none_after_erase i pre post b hbid hpre hnodup
  · intro hnone
    simp [remove_book, hnone]

/-- C4, instantiated: removing the only book (id 1) makes a lookup of id 1
report not-found, and removing a nonexistent id 2 leaves the store
unchanged. -/
theorem removeBook_spec_witness :
    find_book_by_id 1 ((remove_book 1 duneLib).1.books) = none ∧
    (remove_book 2 duneLib).1 = duneLib := by
  constructor
  · exact ((removeBook_spec duneLib 1 (by decide)).1 duneBook (by decide)).2.2.2
  · exact ((removeBook_spec duneLib 2 (by decide)).2 (by decide)).1

/-- C5. `change_status` on a present id rewrites exactly the status field of
the (first) matching book — its id, title, author and year, and every other
book, are untouched — and saves; on an absent id it emits the not-found
diagnostic and leaves the store completely unchanged with no save. It
accepts any `new_status` string (no validation at this layer). -/
theorem changeStatus_spec (lib : Library) (i : Int) (st : String) :
    (∀ b, find_book_by_id i lib.books = some b →
      b.id = i ∧
      (∃ pre post, lib.books = pre ++ b :: post ∧ (∀ c ∈ pre, c.id ≠ i) ∧
        (change_status i st lib).1.books = pre ++ { b with status := st } :: post) ∧
      (change_status i st lib).1.file = saveFile ((change_status i st lib).1.books) ∧
      (change_status i st lib).2 = []) ∧
    (find_book_by_id i lib.books = none →
      (change_status i st lib).1 = lib ∧ (change_status i st lib).2 = [notFoundMsg i]) := by
  constructor
  · intro b hfind
    obtain ⟨hbid, pre, post, heq, hpre⟩ := find_decomp i lib.books b hfind
    have hbooks : (change_status i st lib).1.books =
        pre ++ { b with status := st } :: post := by
      simp only [change_status, hfind]
      show setStatusFirst i st lib.books = pre ++ { b with status := st } :: post
      rw [heq]
      exact setStatusFirst_append_decomp i st pre post b hbid hpre
    refine ⟨hbid, ⟨pre, post, heq, hpre, hbooks⟩, ?_, ?_⟩
    · simp only [change_status, hfind]
      rfl
    · simp only [change_status, hfind]
  · intro hnone
    simp [change_status, hnone]

/-- C5, instantiated: checking out the only book (id 1) rewrites exactly its
status, and a status change on a nonexistent id 2 leaves the store
unchanged. -/
theorem changeStatus_spec_witness :
    (change_status 1 "выдана" duneLib).2 = [] ∧
    (change_status 2 "выдана" duneLib).1 = duneLib := by
  constructor
  · exact ((changeStatus_spec duneLib 1 "выдана").1 duneBook (by decide)).2.2.2
  · exact ((changeStatus_spec duneLib 2 "выдана").2 (by decide)).1

lemma from_dict_error_of_missing (r : BookDict)
    (h : r.title = none ∨ r.author = none ∨ r.year = none ∨ r.id = none ∨
      r.status = none) :
    ∃ k, Book.from_dict r = .error (.keyError k) := by
  rcases r with ⟨i, t, a, y, s⟩
  cases t with
  | none => exact ⟨"title", rfl⟩
  | some tv =>
    cases a with
    | none => exact ⟨"author", rfl⟩
    | some av =>
      cases y with
      | none => exact ⟨"year", rfl⟩
      | some yv =>
        cases i with
        | none => exact ⟨"id", rfl⟩
        | some iv =>
          cases s with
          | none => exact ⟨"status", rfl⟩
          | some sv => simp at h

lemma from_dict_error_is_keyError (r : BookDict) (e : PyError)
    (h : Book.from_dict r = .error e) : ∃ k, e = .keyError k := by
  rcases r with ⟨i, t, a, y, s⟩
  cases t with
  | none =>
    simp only [Book.from_dict] at h
    exact ⟨"title", (Except.error.inj h).symm⟩
  | some tv =>
    cases a with
    | none =>
      simp only [Book.from_dict] at h
      exact ⟨"author", (Except.error.inj h).symm⟩
    | some av =>
      cases y with
      | none =>
        simp only [Book.from_dict] at h
        exact ⟨"year", (Except.error.inj h).symm⟩
      | some yv =>
        cases i with
        | none =>
          simp only [Book.from_dict] at h
          exact ⟨"id", (Except.error.inj h).symm⟩
        | some iv =>
          cases s with
          | none =>
            simp only [Book.from_dict] at h
            exact ⟨"status", (Except.error.inj h).symm⟩
          | some sv => simp [Book.from_dict] at h

lemma fromDicts_error_of_bad_mem (recs : List BookDict)
    (h : ∃ r ∈ recs, ∃ k, Book.from_dict r = .error (.keyError k)) :
    ∃ k, fromDicts recs = .error (.keyError k) := by
  induction recs with
  | nil => simp at h
  | cons d ds ih =>
    rcases h with ⟨r, hr, k, hk⟩
    cases hd : Book.from_dict d with
    | error e =>
      obtain ⟨k2, hk2⟩ := from_dict_error_is_keyError d e hd
      exact ⟨k2, by rw [fromDicts, hd, hk2]⟩
    | ok b =>
      rcases List.mem_cons.mp hr with h1 | h1
      · rw [h1, hd] at hk
        cases hk
      · obtain ⟨k3, hk3⟩ := ih ⟨r, h1, k, hk⟩
        exact ⟨k3, by rw [fromDicts, hd, hk3]⟩

/-- C8 fails in its last part: on a file whose only record lacks the `title`
key, construction does not recover the way the decode-failure handler would
(empty collection plus a diagnostic); instead the `KeyError` escapes the
`except json.JSONDecodeError` handler and the whole load fails. -/
theorem missingKey_counterexample :
    Library.init (.present (.goodJson [recMissingTitle])) = .error (.keyError "title") ∧
    (Library.init (.present (.goodJson [recMissingTitle]))).isOk = false :=
  ⟨rfl, rfl⟩

/-- C8 (amended). A persisted record lacking any of the five required keys
makes reconstruction raise `KeyError` during load; the failure is not
handled per-record (no record is skipped), it aborts loading of the entire
file, and it is NOT contained by the handler that catches whole-file decode
failure — that handler catches only `JSONDecodeError`, so the `KeyError`
propagates out of both `load_books` and construction. -/
theorem missingKey_aborts_load (books : List Book) (recs : List BookDict)
    (h : ∃ r ∈ recs, r.title = none ∨ r.author = none ∨ r.year = none ∨
      r.id = none ∨ r.status = none) :
    ∃ k, load_books books (.present (.goodJson recs)) = .error (.keyError k) ∧
      Library.init (.present (.goodJson recs)) = .error (.keyError k) := by
  rcases h with ⟨r, hr, hmiss⟩
  obtain ⟨k0, hk0⟩ := from_dict_error_of_missing r hmiss
  obtain ⟨k, hk⟩ := fromDicts_error_of_bad_mem recs ⟨r, hr, k0, hk0⟩
  have hload : ∀ bs0 : List Book,
      load_books bs0 (.present (.goodJson recs)) = .error (.keyError k) := by
    intro bs0
    show handleDecode bs0 (fromDicts recs) = _
    rw [hk]
    rfl
  refine ⟨k, hload books, ?_⟩
  simp only [Library.init, hload []]

/-- C8 (amended), instantiated: a one-record file whose record lacks `title`
makes both `load_books` and construction fail with a `KeyError`. -/
theorem missingKey_aborts_load_witness :
    ∃ k, load_books [] (.present (.goodJson [recMissingTitle])) = .error (.keyError k) ∧
      Library.init (.present (.goodJson [recMissingTitle])) = .error (.keyError k) :=
  missingKey_aborts_load [] [recMissingTitle]
    ⟨recMissingTitle, List.mem_singleton.mpr rfl, Or.inl rfl⟩

/-- C10. Identifiers are reused through the normal API: in a store with
pairwise-distinct positive ids, removing the book that holds the maximum id
via `remove_book` makes the next `add_book` assign an id no greater than the
removed maximum (1 + the maximum of the remaining ids, or 1 if none
remain). -/
theorem id_reuse_after_remove (lib : Library) (b : Book)
    (hb : b ∈ lib.books)
    (hmax : ∀ c ∈ lib.books, c.id ≤ b.id)
    (hnodup : (lib.books.map Book.id).Nodup)
    (hpos : ∀ c ∈ lib.books, 1 ≤ c.id) :
    generate_id ((remove_book b.id lib).1.books) ≤ b.id ∧
    ∀ (t a : String) (y : Int),
      ∃ nb, (add_book t a y ((remove_book b.id lib).1)).books =
          ((remove_book b.id lib).1).books ++ [nb] ∧
        nb.id = generate_id ((remove_book b.id lib).1.books) ∧ nb.id ≤ b.id := by
  have hfound : ∃ b2, find_book_by_id b.id lib.books = some b2 := by
    cases hfind : find_book_by_id b.id lib.books with
    | some b2 => exact ⟨b2, rfl⟩
    | none =>
      exfalso
      rw [find_book_by_id, List.find?_eq_none] at hfind
      exact hfind b hb (by simp)
  obtain ⟨b2, hfind⟩ := hfound
  obtain ⟨hb2id, pre, post, heq, hpre⟩ := find_decomp b.id lib.books b2 hfind
  have hbooks : (remove_book b.id lib).1.books = pre ++ post := by
    simp only [remove_book, hfind]
    show lib.books.eraseP (fun c => decide (c.id = b.id)) = pre ++ post
    rw [heq]
    exact eraseP_append_decomp b.id pre post b2 hb2id hpre
  have hmem_lt : ∀ m ∈ pre ++ post, m.id < b.id := by
    intro m hm
    have hmem : m ∈ lib.books := by
      rw [heq]
      rcases List.mem_append.mp hm with h1 | h1
      · exact List.mem_append_left _ h1
      · exact List.mem_append_right _ (List.mem_cons_of_mem b2 h1)
    have hle : m.id ≤ b.id := hmax m hmem
    have hne : m.id ≠ b.id := by
      rcases List.mem_append.mp hm with h1 | h1
      · exact hpre m h1
      · intro he
        rw [heq, List.map_append, List.map_cons] at hnodup
        have hnotin : b2.id ∉ post.map Book.id :=
          (List.nodup_cons.mp (hnodup.of_append_right)).1
        have hcmem : m.id ∈ post.map Book.id := List.mem_map_of_mem Book.id h1
        rw [he, ← hb2id] at hcmem
        exact hnotin hcmem
    omega
  have hgen : generate_id (pre ++ post) ≤ b.id := by
    cases hpp : pre ++ post with
    | nil =>
      show (1 : Int) ≤ b.id
      exact hpos b hb
    | cons c cs =>
      obtain ⟨m, hm, hgeq, _⟩ := generate_id_spec_nonempty c cs
      rw [hgeq]
      have hmlt : m.id < b.id := hmem_lt m (hpp ▸ hm)
      omega
  have hgenR : generate_id ((remove_book b.id lib).1.books) ≤ b.id := by
    rw [hbooks]
    exact hgen
  refine ⟨hgenR, ?_⟩
  intro t a y
  exact ⟨Book.mk_default t a y (generate_id ((remove_book b.id lib).1.books)),
    add_book_books_eq t a y ((remove_book b.id lib).1), rfl, hgenR⟩

/-- C10, instantiated: in a two-book store with ids 1 and 2, removing the
book with the maximum id 2 makes the next generated id at most 2. -/
theorem id_reuse_after_remove_witness :
    generate_id ((remove_book foundationBook.id twoBookLib).1.books) ≤ foundationBook.id :=
  (id_reuse_after_remove twoBookLib foundationBook (by decide) (by decide) (by decide)
    (by decide)).1
